import Mathlib

/-!
Verification of the Microsoft-Graph-Teams scripts.

Strings from the Python sources are modelled as lists of characters
(`Str := List Char`), with structurally recursive helpers mirroring the
Python string operations used by the scripts (`str.lower`, `str.split()`,
`str.startswith`, slicing, `in`, `str.replace(" ", "")`).  All definitions
are executable, so concrete runs of the embedded functions reduce by
`decide` / `rfl`.
-/

/-- Character strings of the embedded scripts. -/
abbrev Str := List Char

/-- Python `str.lower()` on a character list. -/
def lowerStr (s : Str) : Str := s.map Char.toLower

/-- Python `a.startswith(b)`: `isPrefixList b a` tests whether `b` is a
prefix of `a`. -/
def isPrefixList : Str → Str → Bool
  | [], _ => true
  | _ :: _, [] => false
  | a :: as, b :: bs => a == b && isPrefixList as bs

/-- Python `pat in s`: contiguous-substring containment. -/
def isInfixList (pat s : Str) : Bool :=
  match s with
  | [] => isPrefixList pat []
  | _ :: rest => isPrefixList pat s || isInfixList pat rest

/-- Accumulator loop for `pySplit`: the current (reversed) word is carried
while scanning the input. -/
def splitWsAux : Str → Str → List Str
  | [], cur => if cur == [] then [] else [cur.reverse]
  | c :: rest, cur =>
    if c.isWhitespace then
      (if cur == [] then [] else [cur.reverse]) ++ splitWsAux rest []
    else splitWsAux rest (c :: cur)

/-- Python `str.split()` (no argument): split on whitespace runs, dropping
empty pieces. -/
def pySplit (s : Str) : List Str := splitWsAux s []

/-- Python `str.replace(" ", "")`: delete every space character. -/
def removeSpaces (s : Str) : Str := s.filter fun c => c != ' '

/-!
## `servitec_notebook_extraction.py`: `match_notebook_to_channel`

A Teams channel as consumed by the matcher: the `displayName` and `id`
fields of the Graph channel object.
-/

/-- A Teams channel record (the `displayName` and `id` fields used by
`match_notebook_to_channel`). -/
structure Channel where
  displayName : Str
  id : Str
deriving DecidableEq

/-- The fixed list of localized notebook-name pieces removed from the front
of the lowercased notebook name, in source order. -/
def prefixes : List Str :=
  [ "bloc de notas de ".toList
  , "notas_ ".toList
  , "notas de ".toList
  , "notebook ".toList
  , "notes - ".toList
  , "notes_ ".toList
  , "bloc de notes de ".toList
  , "cuaderno de ".toList
  , "onenote - ".toList ]

/-- The cleaned notebook name: lowercase the notebook name, then walk the
prefix list in order, chopping each prefix off the front whenever the name
as cleaned so far starts with it. -/
def cleanNotebookName (notebook_name : Str) : Str :=
  prefixes.foldl
    (fun acc p => if isPrefixList p acc then acc.drop p.length else acc)
    (lowerStr notebook_name)

/-- The predicate selecting the "General" channel
(`c.get("displayName", "").lower() == "general"`). -/
def generalPred (c : Channel) : Bool := lowerStr c.displayName == "general".toList

/-- The team-name short-circuit condition: the cleaned notebook name equals
the lowercased team name, directly or after removing all spaces from both. -/
def shortCircuitCond (clean team_name_lower : Str) : Bool :=
  clean == team_name_lower ||
    removeSpaces clean == removeSpaces team_name_lower

/-- STRATEGY 1: first channel whose lowercased name is non-empty and equals
the cleaned notebook name. -/
def strat1 (clean : Str) (channels : List Channel) : Option Channel :=
  channels.find? fun c =>
    let n := lowerStr c.displayName
    n != [] && n == clean

/-- STRATEGY 2: first channel whose lowercased name is non-empty and is
contained in the cleaned notebook name, or contains it. -/
def strat2 (clean : Str) (channels : List Channel) : Option Channel :=
  channels.find? fun c =>
    let n := lowerStr c.displayName
    n != [] && (isInfixList n clean || isInfixList clean n)

/-- The distinct whitespace-delimited tokens of a string
(Python `set(s.split())`). -/
def tokensOf (s : Str) : List Str := (pySplit s).dedup

/-- The tokens shared by a channel's lowercased name and the cleaned
notebook name (Python `ch_tokens.intersection(nb_tokens)`). -/
def sharedTokens (clean : Str) (c : Channel) : List Str :=
  (tokensOf (lowerStr c.displayName)).filter fun t => (tokensOf clean).contains t

/-- STRATEGY 3 score of a channel: number of shared tokens, plus one bonus
point for every shared token longer than 3 characters. -/
def channelScore (clean : Str) (c : Channel) : Nat :=
  (sharedTokens clean c).length +
    ((sharedTokens clean c).filter fun t => 3 < t.length).length

/-- One iteration of the STRATEGY 3 loop: skip channels with empty names,
otherwise keep the channel when its score strictly beats the best so far. -/
def strat3Step (clean : Str) (acc : Option Channel × Nat) (c : Channel) :
    Option Channel × Nat :=
  if lowerStr c.displayName == [] then acc
  else if acc.2 < channelScore clean c then (some c, channelScore clean c)
  else acc

/-- STRATEGY 3: token matching with scoring; the best match is used when
its score is positive. -/
def strat3 (clean : Str) (channels : List Channel) : Option Channel :=
  match channels.foldl (strat3Step clean) (none, 0) with
  | (some c, s) => if 0 < s then some c else none
  | (none, _) => none

/-- The initials of a channel name: first letter of each whitespace token. -/
def initialsOf (n : Str) : Str := (pySplit n).filterMap List.head?

/-- STRATEGY 4: initial-letters matching; first channel whose initials
(longer than one letter) occur in the cleaned name, or whose first letter
equals the cleaned name's first letter. -/
def strat4 (clean : Str) (channels : List Channel) : Option Channel :=
  channels.find? fun c =>
    let n := lowerStr c.displayName
    n != [] &&
      ((1 < (initialsOf n).length && isInfixList (initialsOf n) clean) ||
        (0 < clean.length && clean.head? == n.head?))

/-- STRATEGY 5 (also used by the team-name short-circuit): the first channel
whose lowercased name is "general". -/
def strat5 (channels : List Channel) : Option Channel :=
  channels.find? generalPred

/-- The cascade of early returns of `match_notebook_to_channel`: the
team-name short-circuit, then strategies 1 to 4, the "General" fallback and
the first-channel fallback, in source order. -/
def candidateChannel (notebook_name : Str) (channels : List Channel)
    (team_name : Str) : Option Channel :=
  (if shortCircuitCond (cleanNotebookName notebook_name) (lowerStr team_name)
    then strat5 channels else none) <|>
  strat1 (cleanNotebookName notebook_name) channels <|>
  strat2 (cleanNotebookName notebook_name) channels <|>
  strat3 (cleanNotebookName notebook_name) channels <|>
  strat4 (cleanNotebookName notebook_name) channels <|>
  strat5 channels <|>
  channels.head?

/-- `match_notebook_to_channel(notebook_name, channels, team_name)`: the
cascading matcher of `servitec_notebook_extraction.py`.  Each Python early
`return` becomes one arm of the `Option` cascade `candidateChannel`; the
final pair is the sentinel `("Unknown Channel", "unknown")`. -/
def match_notebook_to_channel (notebook_name : Str) (channels : List Channel)
    (team_name : Str) : Str × Str :=
  match candidateChannel notebook_name channels team_name with
  | some c => (c.displayName, c.id)
  | none => ("Unknown Channel".toList, "unknown".toList)

/-!
## HTTP requests

The scripts' network layer: an HTTP method, a response record (status code,
optional numeric `Retry-After` header, parsed JSON body abstracted as a
string), and an outcome record collecting what a helper returned, how long
it slept, and which requests it issued.
-/

/-- HTTP request methods used by the scripts. -/
inductive HttpMethod where
  | GET
  | POST
deriving DecidableEq

/-- A server response: status code, optional numeric Retry-After header,
and the parsed JSON body (abstracted as a string). -/
structure HttpResponse where
  status : Nat
  retryAfterHeader : Option Nat
  body : String
deriving DecidableEq

/-- Observable outcome of an HTTP helper call: the value returned, the
sleeps performed, and the requests issued (method and URL), in order. -/
structure RequestOutcome where
  result : Option String
  sleeps : List Nat
  requests : List (HttpMethod × String)
deriving DecidableEq

/-- The retry loop of `rate_limited_request` in
`servitec_notebook_extraction.py`, one list element per remaining attempt:
a 200 returns the body; a 429 sleeps for the Retry-After header (or the
current default), doubles the default capped at 60, and retries; any other
status returns `None`; non-GET methods return `None` without issuing a
request. -/
def rate_limited_go (url method : String) (responses : List HttpResponse)
    (retry_after : Nat) : RequestOutcome :=
  match responses with
  | [] => ⟨none, [], []⟩
  | r :: rest =>
    if method == "GET" then
      if r.status == 200 then ⟨some r.body, [], [(HttpMethod.GET, url)]⟩
      else if r.status == 429 then
        let wait := r.retryAfterHeader.getD retry_after
        let next := rate_limited_go url method rest (min (retry_after * 2) 60)
        ⟨next.result, wait :: next.sleeps, (HttpMethod.GET, url) :: next.requests⟩
      else ⟨none, [], [(HttpMethod.GET, url)]⟩
    else ⟨none, [], []⟩

/-- `rate_limited_request(url, method, retry_after)` with `max_retries = 3`:
the three responses are what the server would answer on the successive
attempts. -/
def rate_limited_request (url method : String) (r0 r1 r2 : HttpResponse)
    (retry_after : Nat) : RequestOutcome :=
  rate_limited_go url method [r0, r1, r2] retry_after

/-- `make_request` of `servitec_notebook_extraction.py`: delegates to
`rate_limited_request` with the default backoff of 2 seconds. -/
def make_request (url method : String) (r0 r1 r2 : HttpResponse) :
    RequestOutcome :=
  rate_limited_request url method r0 r1 r2 2

/-- `make_request` of `notebook_extraction.py`: a single GET attempt,
returning the body on a 200 and `None` otherwise; non-GET methods return
`None` without issuing a request. -/
def ne_make_request (url method : String) (r : HttpResponse) : RequestOutcome :=
  if method == "GET" then
    if r.status == 200 then ⟨some r.body, [], [(HttpMethod.GET, url)]⟩
    else ⟨none, [], [(HttpMethod.GET, url)]⟩
  else ⟨none, [], []⟩

/-- A Graph user object as consumed by the chat-creation loop of
`export_graph_users.py` (`id`, `displayName`, `userPrincipalName`; `none`
models a missing key). -/
structure GraphUser where
  id : Option String
  displayName : Option String
  userPrincipalName : Option String
deriving DecidableEq

/-- The chat-creation endpoint of `export_graph_users.py`. -/
def chatsUrl : String := "https://graph.microsoft.com/v1.0/chats"

/-- The requests issued by the per-page user loop of
`export_graph_users.py`: users with a missing or empty `id` or
`userPrincipalName` are skipped, the current user is skipped, and every
other user causes one POST to the chats endpoint. -/
def user_chat_requests (me_id : String) : List GraphUser → List (HttpMethod × String)
  | [] => []
  | u :: rest =>
    (match u.id, u.userPrincipalName with
      | some uid, some upn =>
        if uid == "" || upn == "" then []
        else if uid == me_id then []
        else [(HttpMethod.POST, chatsUrl)]
      | _, _ => []) ++ user_chat_requests me_id rest

/-- The single GET attempt of `make_request` in
`explore_team_notebooks.py`: the one request it issues. -/
def etn_make_request_requests (url : String) : List (HttpMethod × String) :=
  [(HttpMethod.GET, url)]

/-- The request issued by `get_buckets` of `modelo.py`. -/
def modelo_get_buckets_requests (plan_id : String) :
    List (HttpMethod × String) :=
  [(HttpMethod.GET,
    "https://graph.microsoft.com/v1.0/planner/plans/" ++ plan_id ++ "/buckets")]

/-- The request issued by `get_tasks` of `modelo.py`. -/
def modelo_get_tasks_requests (plan_id : String) :
    List (HttpMethod × String) :=
  [(HttpMethod.GET,
    "https://graph.microsoft.com/v1.0/planner/plans/" ++ plan_id ++ "/tasks")]

/-- The request issued by `get_task_details` of `modelo.py`. -/
def modelo_get_task_details_requests (task_id : String) :
    List (HttpMethod × String) :=
  [(HttpMethod.GET,
    "https://graph.microsoft.com/v1.0/planner/tasks/" ++ task_id ++ "/details")]

/-- The current-user lookup request of `export_graph_users.py`. -/
def export_me_request : List (HttpMethod × String) :=
  [(HttpMethod.GET, "https://graph.microsoft.com/v1.0/me")]

/-- The chat-listing request of `export_graph_users.py`. -/
def export_chats_request : List (HttpMethod × String) :=
  [(HttpMethod.GET, "https://graph.microsoft.com/v1.0/me/chats")]

/-- The chat-members request of `export_graph_users.py`. -/
def export_members_request (chat_id : String) : List (HttpMethod × String) :=
  [(HttpMethod.GET,
    "https://graph.microsoft.com/v1.0/chats/" ++ chat_id ++ "/members")]

/-- One users-page request of the pagination loop of
`export_graph_users.py`. -/
def export_users_page_request (url : String) : List (HttpMethod × String) :=
  [(HttpMethod.GET, url)]

/-!
## `explore_drive_structure` (`servitec_notebook_extraction.py`)

A drive item is a name, a folder flag, and (for folders) the children the
Graph API would return for it.  `explore_drive_structure` records, for each
call, the folder path and the depth at which the call was made.
-/

/-- A SharePoint drive item: name, folder flag, and children. -/
inductive DriveItem where
  | mk (name : Str) (isFolder : Bool) (children : List DriveItem)

/-- Name of a drive item. -/
def DriveItem.name : DriveItem → Str
  | .mk n _ _ => n

/-- Folder flag of a drive item (`item.get("folder")`). -/
def DriveItem.isFolder : DriveItem → Bool
  | .mk _ f _ => f

/-- Children of a drive item (the Graph `children` listing). -/
def DriveItem.children : DriveItem → List DriveItem
  | .mk _ _ c => c

mutual
/-- `explore_drive_structure(drive_id, folder_path, folder_id, depth)`:
returns a `(folder_path, depth)` trace entry per call; returns immediately
when `depth > 3`, and recurses into child folders only while `depth < 2`,
at `depth + 1`. -/
def explore_drive_structure : DriveItem → Str → Nat → List (Str × Nat)
  | .mk _ _ children, folder_path, depth =>
    if depth > 3 then []
    else (folder_path, depth) :: exploreChildren children folder_path depth

/-- The `for item in items` loop body of `explore_drive_structure`. -/
def exploreChildren : List DriveItem → Str → Nat → List (Str × Nat)
  | [], _, _ => []
  | item :: rest, folder_path, depth =>
    (if item.isFolder && decide (depth < 2) then
      explore_drive_structure item (folder_path ++ '/' :: item.name) (depth + 1)
    else []) ++ exploreChildren rest folder_path depth
end

/-!
## `extract_onenote_notebooks_from_teams` (`notebook_extraction.py`)

Only the deduplication structure matters here: the helper calls
(`is_onenote_tab`, `get_tab_notebook_info`, section fetching) are abstracted
into the input data, and a notebook entry keeps its `notebook_id` (which is
`None` when the Graph object has no `id` key) and its `source` tag.
-/

/-- The notebook information extracted from a OneNote tab's configuration:
`notebook_id` is `none` when the `"notebook_id"` key is absent. -/
structure TabInfo where
  notebook_id : Option String
deriving DecidableEq

/-- A channel tab: whether `is_onenote_tab` accepts it, and what
`get_tab_notebook_info` returns for it (`none` models a falsy result). -/
structure ChannelTab where
  isOneNote : Bool
  info : Option TabInfo
deriving DecidableEq

/-- A team channel as consumed by the extraction loop: its tabs. -/
structure NEChannel where
  tabs : List ChannelTab

/-- A team as consumed by the extraction loop: the ids of the notebooks the
group API reports (each `none` when the notebook object has no `id`), and
the team's channels. -/
structure NETeam where
  groupNotebookIds : List (Option String)
  channels : List NEChannel

/-- One entry of `notebooks_data`, keeping the fields the duplicate check
is about. -/
structure NotebookEntry where
  notebook_id : Option String
  source : String
deriving DecidableEq

/-- The extraction loop state: the `notebooks_data` accumulator and the
`processed_notebook_ids` set (as a list). -/
structure ExtractState where
  notebooks_data : List NotebookEntry
  processed_notebook_ids : List (Option String)

/-- Body of the group-notebook loop: skip a notebook whose id is already in
`processed_notebook_ids`, otherwise record the id and append the entry. -/
def processGroupNotebook (st : ExtractState) (nid : Option String) :
    ExtractState :=
  if st.processed_notebook_ids.contains nid then st
  else
    ⟨st.notebooks_data ++ [⟨nid, "group_api"⟩],
      nid :: st.processed_notebook_ids⟩

/-- Body of the tab loop: only OneNote tabs with extractable info carrying
a `notebook_id` key are considered; a seen id is skipped, a new id is
recorded and its entry appended. -/
def processTab (st : ExtractState) (tab : ChannelTab) : ExtractState :=
  if tab.isOneNote then
    match tab.info with
    | none => st
    | some info =>
      match info.notebook_id with
      | none => st
      | some nid =>
        if st.processed_notebook_ids.contains (some nid) then st
        else
          ⟨st.notebooks_data ++ [⟨some nid, "tab_configuration"⟩],
            some nid :: st.processed_notebook_ids⟩
  else st

/-- Body of the channel loop: process every tab of the channel. -/
def processChannel (st : ExtractState) (ch : NEChannel) : ExtractState :=
  ch.tabs.foldl processTab st

/-- Body of the team loop: group notebooks first, then every channel. -/
def processTeam (st : ExtractState) (team : NETeam) : ExtractState :=
  team.channels.foldl processChannel
    (team.groupNotebookIds.foldl processGroupNotebook st)

/-- `extract_onenote_notebooks_from_teams`: the final `notebooks_data` list
after processing every team, starting from an empty list and an empty
`processed_notebook_ids` set. -/
def extract_onenote_notebooks_from_teams (teams : List NETeam) :
    List NotebookEntry :=
  (teams.foldl processTeam ⟨[], []⟩).notebooks_data

/-- The invariant of the extraction loop: the recorded notebook ids are
pairwise distinct, and every recorded id is in the processed set. -/
def ExtractInv (st : ExtractState) : Prop :=
  (st.notebooks_data.map NotebookEntry.notebook_id).Nodup ∧
  ∀ i ∈ st.notebooks_data.map NotebookEntry.notebook_id,
    i ∈ st.processed_notebook_ids

/-!
## Shared helper lemmas
-/

/-- An `Option` cascade yields `some` from its left arm or, when that arm
is `none`, from the right. -/
theorem orElse_eq_some_iff {α : Type} (a b : Option α) (c : α) :
    (a <|> b) = some c ↔ a = some c ∨ (a = none ∧ b = some c) := by
  cases a <;> simp

/-- An `Option` cascade is `none` exactly when both arms are. -/
theorem orElse_eq_none_iff {α : Type} (a b : Option α) :
    (a <|> b) = none ↔ a = none ∧ b = none := by
  cases a <;> simp

/-- `foldl` preserves any invariant its step function preserves. -/
theorem foldl_preserves_inv {α β : Type} (P : α → Prop) (f : α → β → α)
    (hf : ∀ a b, P a → P (f a b)) :
    ∀ (l : List β) (a : α), P a → P (l.foldl f a) := by
  intro l
  induction l with
  | nil => intro a ha; exact ha
  | cons x xs ih => intro a ha; exact ih _ (hf _ _ ha)

/-!
## Claim theorems
-/

/-- Claim C5: when the cleaned notebook name matches the team name
(directly or after space removal) and some channel is named "General"
(case-insensitively), `match_notebook_to_channel` returns the first such
General channel, bypassing all the ordered matching strategies. -/
theorem team_name_shortcircuit_general (nb : Str) (channels : List Channel)
    (team : Str) (g : Channel)
    (hcond : shortCircuitCond (cleanNotebookName nb) (lowerStr team) = true)
    (hg : channels.find? generalPred = some g) :
    match_notebook_to_channel nb channels team = (g.displayName, g.id) := by
  unfold match_notebook_to_channel candidateChannel
  rw [hcond, if_pos rfl]
  rw [show strat5 channels = some g from hg]
  rfl

/-- Witness for C5 at a concrete input: the notebook "Notebook Alpha Team"
in team "Alpha Team" goes to the General channel even though another
channel matches the cleaned name exactly. -/
theorem team_name_shortcircuit_general_witness :
    match_notebook_to_channel "Notebook Alpha Team".toList
      [⟨"Alpha Team".toList, "c1".toList⟩, ⟨"General".toList, "g1".toList⟩]
      "Alpha Team".toList = ("General".toList, "g1".toList) :=
  team_name_shortcircuit_general "Notebook Alpha Team".toList
    [⟨"Alpha Team".toList, "c1".toList⟩, ⟨"General".toList, "g1".toList⟩]
    "Alpha Team".toList ⟨"General".toList, "g1".toList⟩
    (by decide) (by decide)

/-- Claim C6: the cleaned name is the lowercased notebook name with each
prefix of the fixed list, in list order, stripped from the front whenever
the name cleaned so far starts with it; and the matcher's result depends on
the notebook name only through this cleaned name. -/
theorem clean_name_determines_match :
    (∀ nb : Str, cleanNotebookName nb =
      prefixes.foldl
        (fun acc p => if isPrefixList p acc then acc.drop p.length else acc)
        (lowerStr nb)) ∧
    (∀ nb₁ nb₂ : Str, ∀ channels : List Channel, ∀ team : Str,
      cleanNotebookName nb₁ = cleanNotebookName nb₂ →
      match_notebook_to_channel nb₁ channels team =
        match_notebook_to_channel nb₂ channels team) := by
  refine ⟨fun nb => rfl, fun nb₁ nb₂ channels team h => ?_⟩
  unfold match_notebook_to_channel candidateChannel
  rw [h]

/-- Witness for C6 at a concrete input: two differently-prefixed notebook
names with the same cleaned form are matched identically. -/
theorem clean_name_determines_match_witness :
    match_notebook_to_channel "Notes - Alpha".toList
      [⟨"Beta".toList, "b1".toList⟩] "team".toList =
    match_notebook_to_channel "Notas de Alpha".toList
      [⟨"Beta".toList, "b1".toList⟩] "team".toList :=
  clean_name_determines_match.2 "Notes - Alpha".toList "Notas de Alpha".toList
    [⟨"Beta".toList, "b1".toList⟩] "team".toList (by decide)

/-- Counterexample for C2: the chat-creation loop of
`export_graph_users.py` issues a POST request to the chats endpoint for a
user other than the current one, so not every request of the five scripts
is a GET. -/
theorem export_users_issues_post :
    user_chat_requests "me-id"
      [⟨some "u-1", some "User One", some "u1@contoso.com"⟩] =
      [(HttpMethod.POST, chatsUrl)] ∧
    HttpMethod.POST ≠ HttpMethod.GET := by
  refine ⟨by decide, by decide⟩

/-- Claim C2 (amended): every HTTP request issued by the five scripts is a
GET — the retrying helper of `servitec_notebook_extraction.py`, the
single-attempt helpers of `notebook_extraction.py` and
`explore_team_notebooks.py`, the three Planner fetchers of `modelo.py`, and
the current-user, chat-listing, chat-members and users-page requests of
`export_graph_users.py` — with the single exception of the chat-creation
loop of `export_graph_users.py`, which issues one POST to the chats
endpoint per processed non-self user. -/
theorem http_methods_amended :
    (∀ url method : String, ∀ responses : List HttpResponse, ∀ d : Nat,
      ∀ req ∈ (rate_limited_go url method responses d).requests,
        req.1 = HttpMethod.GET) ∧
    (∀ url method : String, ∀ r : HttpResponse,
      ∀ req ∈ (ne_make_request url method r).requests,
        req.1 = HttpMethod.GET) ∧
    (∀ url : String, ∀ req ∈ etn_make_request_requests url,
      req.1 = HttpMethod.GET) ∧
    (∀ plan_id : String, ∀ req ∈ modelo_get_buckets_requests plan_id,
      req.1 = HttpMethod.GET) ∧
    (∀ plan_id : String, ∀ req ∈ modelo_get_tasks_requests plan_id,
      req.1 = HttpMethod.GET) ∧
    (∀ task_id : String, ∀ req ∈ modelo_get_task_details_requests task_id,
      req.1 = HttpMethod.GET) ∧
    (∀ req ∈ export_me_request, req.1 = HttpMethod.GET) ∧
    (∀ req ∈ export_chats_request, req.1 = HttpMethod.GET) ∧
    (∀ chat_id : String, ∀ req ∈ export_members_request chat_id,
      req.1 = HttpMethod.GET) ∧
    (∀ url : String, ∀ req ∈ export_users_page_request url,
      req.1 = HttpMethod.GET) ∧
    (∀ me : String, ∀ users : List GraphUser,
      ∀ req ∈ user_chat_requests me users, req = (HttpMethod.POST, chatsUrl)) := by
  refine ⟨?_, ?_, ?_, ?_, ?_, ?_, ?_, ?_, ?_, ?_, ?_⟩
  · intro url method responses
    induction responses with
    | nil => intro d req h; simp [rate_limited_go] at h
    | cons r rest ih =>
      intro d req h
      simp only [rate_limited_go] at h
      split at h
      · split at h
        · simp at h
          rw [h]
        · split at h
          · simp only [List.mem_cons] at h
            rcases h with h | h
            · rw [h]
            · exact ih _ req h
          · simp at h
            rw [h]
      · simp at h
  · intro url method r req h
    simp only [ne_make_request] at h
    split at h
    · split at h <;> · simp at h; rw [h]
    · simp at h
  · intro url req h
    simp [etn_make_request_requests] at h
    rw [h]
  · intro plan_id req h
    simp [modelo_get_buckets_requests] at h
    rw [h]
  · intro plan_id req h
    simp [modelo_get_tasks_requests] at h
    rw [h]
  · intro task_id req h
    simp [modelo_get_task_details_requests] at h
    rw [h]
  · intro req h
    simp [export_me_request] at h
    rw [h]
  · intro req h
    simp [export_chats_request] at h
    rw [h]
  · intro chat_id req h
    simp [export_members_request] at h
    rw [h]
  · intro url req h
    simp [export_users_page_request] at h
    rw [h]
  · intro me users
    induction users with
    | nil => intro req h; simp [user_chat_requests] at h
    | cons u rest ih =>
      intro req h
      simp only [user_chat_requests, List.mem_append] at h
      rcases h with h | h
      · rcases hu : u.id with _ | uid <;> rcases hp : u.userPrincipalName with _ | upn <;>
          simp [hu, hp] at h
        exact h.2.2
      · exact ih req h

/-- Witness for C2 (amended) at concrete inputs: a throttled-then-ok GET
sequence issues only GETs, a concrete Planner buckets fetch issues a GET,
and a one-user page issues the POST. -/
theorem http_methods_amended_witness :
    ((HttpMethod.GET, "https://graph.microsoft.com/v1.0/me") ∈
        (rate_limited_go "https://graph.microsoft.com/v1.0/me" "GET"
          [⟨429, some 3, "t"⟩, ⟨200, none, "ok"⟩] 2).requests →
      (HttpMethod.GET, "https://graph.microsoft.com/v1.0/me").1 = HttpMethod.GET) ∧
    ((HttpMethod.GET,
        "https://graph.microsoft.com/v1.0/planner/plans/" ++ "p1" ++ "/buckets") ∈
        modelo_get_buckets_requests "p1" →
      (HttpMethod.GET,
        "https://graph.microsoft.com/v1.0/planner/plans/" ++ "p1" ++ "/buckets").1 =
        HttpMethod.GET) ∧
    ((HttpMethod.POST, chatsUrl) ∈
        user_chat_requests "me"
          [⟨some "u9", some "U", some "u9@contoso.com"⟩] →
      (HttpMethod.POST, chatsUrl) = (HttpMethod.POST, chatsUrl)) ∧
    (HttpMethod.POST, chatsUrl) ∈
      user_chat_requests "me" [⟨some "u9", some "U", some "u9@contoso.com"⟩] :=
  ⟨http_methods_amended.1 "https://graph.microsoft.com/v1.0/me" "GET"
      [⟨429, some 3, "t"⟩, ⟨200, none, "ok"⟩] 2
      (HttpMethod.GET, "https://graph.microsoft.com/v1.0/me"),
    http_methods_amended.2.2.2.1 "p1"
      (HttpMethod.GET,
        "https://graph.microsoft.com/v1.0/planner/plans/" ++ "p1" ++ "/buckets"),
    http_methods_amended.2.2.2.2.2.2.2.2.2.2 "me"
      [⟨some "u9", some "U", some "u9@contoso.com"⟩] (HttpMethod.POST, chatsUrl),
    by decide⟩

/-- The retry loop issues at most one request per remaining attempt. -/
theorem rate_limited_go_requests_length (url method : String) :
    ∀ (responses : List HttpResponse) (d : Nat),
      (rate_limited_go url method responses d).requests.length ≤
        responses.length := by
  intro responses
  induction responses with
  | nil => intro d; simp [rate_limited_go]
  | cons r rest ih =>
    intro d
    simp only [rate_limited_go]
    split
    · split
      · simp
      · split
        · simpa using Nat.succ_le_succ (ih _)
        · simp
    · simp

/-- Claim C7: `rate_limited_request` makes at most 3 attempts; it returns
the body of the first 200 response (reached while all earlier responses
were 429); on a 429 it sleeps for the Retry-After header value when
present, otherwise the current default wait, then doubles the default wait
capped at 60 before the next attempt; on any other status it returns `None`
immediately without further requests; and after 3 attempts without a 200 it
returns `None`. -/
theorem rate_limited_request_spec (url : String) (r0 r1 r2 : HttpResponse)
    (d : Nat) :
    (rate_limited_request url "GET" r0 r1 r2 d).requests.length ≤ 3 ∧
    (r0.status = 200 →
      rate_limited_request url "GET" r0 r1 r2 d =
        ⟨some r0.body, [], [(HttpMethod.GET, url)]⟩) ∧
    (r0.status = 429 → r1.status = 200 →
      rate_limited_request url "GET" r0 r1 r2 d =
        ⟨some r1.body, [r0.retryAfterHeader.getD d],
          [(HttpMethod.GET, url), (HttpMethod.GET, url)]⟩) ∧
    (r0.status = 429 → r1.status = 429 → r2.status = 200 →
      rate_limited_request url "GET" r0 r1 r2 d =
        ⟨some r2.body,
          [r0.retryAfterHeader.getD d,
            r1.retryAfterHeader.getD (min (d * 2) 60)],
          [(HttpMethod.GET, url), (HttpMethod.GET, url), (HttpMethod.GET, url)]⟩) ∧
    (r0.status ≠ 200 → r0.status ≠ 429 →
      rate_limited_request url "GET" r0 r1 r2 d =
        ⟨none, [], [(HttpMethod.GET, url)]⟩) ∧
    (r0.status = 429 → r1.status ≠ 200 → r1.status ≠ 429 →
      rate_limited_request url "GET" r0 r1 r2 d =
        ⟨none, [r0.retryAfterHeader.getD d],
          [(HttpMethod.GET, url), (HttpMethod.GET, url)]⟩) ∧
    (r0.status = 429 → r1.status = 429 → r2.status ≠ 200 → r2.status ≠ 429 →
      rate_limited_request url "GET" r0 r1 r2 d =
        ⟨none,
          [r0.retryAfterHeader.getD d,
            r1.retryAfterHeader.getD (min (d * 2) 60)],
          [(HttpMethod.GET, url), (HttpMethod.GET, url), (HttpMethod.GET, url)]⟩) ∧
    (r0.status = 429 → r1.status = 429 → r2.status = 429 →
      rate_limited_request url "GET" r0 r1 r2 d =
        ⟨none,
          [r0.retryAfterHeader.getD d,
            r1.retryAfterHeader.getD (min (d * 2) 60),
            r2.retryAfterHeader.getD (min (min (d * 2) 60 * 2) 60)],
          [(HttpMethod.GET, url), (HttpMethod.GET, url), (HttpMethod.GET, url)]⟩) := by
  refine ⟨rate_limited_go_requests_length url "GET" [r0, r1, r2] d, ?_, ?_, ?_, ?_, ?_, ?_, ?_⟩
  · intro h0
    simp [rate_limited_request, rate_limited_go, h0]
  · intro h0 h1
    simp [rate_limited_request, rate_limited_go, h0, h1]
  · intro h0 h1 h2
    simp [rate_limited_request, rate_limited_go, h0, h1, h2]
  · intro h0 h0b
    simp [rate_limited_request, rate_limited_go, h0, h0b]
  · intro h0 h1 h1b
    simp [rate_limited_request, rate_limited_go, h0, h1, h1b]
  · intro h0 h1 h2 h2b
    simp [rate_limited_request, rate_limited_go, h0, h1, h2, h2b]
  · intro h0 h1 h2
    simp [rate_limited_request, rate_limited_go, h0, h1, h2]

/-- Witness for C7 at a concrete input: a 429 with Retry-After 7 followed
by a 200 returns the 200 body after a single 7-second sleep and two GETs. -/
theorem rate_limited_request_spec_witness :
    rate_limited_request "https://graph.microsoft.com/v1.0/me/joinedTeams"
      "GET" ⟨429, some 7, "throttled"⟩ ⟨200, none, "payload"⟩
      ⟨500, none, "server error"⟩ 2 =
      ⟨some "payload", [7],
        [(HttpMethod.GET, "https://graph.microsoft.com/v1.0/me/joinedTeams"),
          (HttpMethod.GET, "https://graph.microsoft.com/v1.0/me/joinedTeams")]⟩ :=
  (rate_limited_request_spec "https://graph.microsoft.com/v1.0/me/joinedTeams"
    ⟨429, some 7, "throttled"⟩ ⟨200, none, "payload"⟩
    ⟨500, none, "server error"⟩ 2).2.2.1 rfl rfl

/-- Appending a fresh id preserves the extraction invariant. -/
theorem extract_inv_append (st : ExtractState) (nid : Option String)
    (src : String) (h : ExtractInv st)
    (hnotin : nid ∉ st.processed_notebook_ids) :
    ExtractInv ⟨st.notebooks_data ++ [⟨nid, src⟩],
      nid :: st.processed_notebook_ids⟩ := by
  obtain ⟨hnodup, hsub⟩ := h
  have hnotdata : nid ∉ st.notebooks_data.map NotebookEntry.notebook_id :=
    fun hmem => hnotin (hsub nid hmem)
  constructor
  · simp only [List.map_append, List.map_cons, List.map_nil]
    simp [List.nodup_append, hnodup, hnotdata]
  · intro i hi
    simp only [List.map_append, List.map_cons, List.map_nil,
      List.mem_append, List.mem_singleton] at hi
    rcases hi with hi | hi
    · exact List.mem_cons_of_mem _ (hsub i hi)
    · rw [hi]; exact List.mem_cons_self _ _

/-- The group-notebook loop body preserves the extraction invariant. -/
theorem processGroupNotebook_inv (st : ExtractState) (nid : Option String)
    (h : ExtractInv st) : ExtractInv (processGroupNotebook st nid) := by
  unfold processGroupNotebook
  cases hb : st.processed_notebook_ids.contains nid
  · rw [if_neg (by simp [hb])]
    refine extract_inv_append st nid "group_api" h ?_
    simp at hb
    exact hb
  · rw [if_pos rfl]
    exact h

/-- The tab loop body preserves the extraction invariant. -/
theorem processTab_inv (st : ExtractState) (tab : ChannelTab)
    (h : ExtractInv st) : ExtractInv (processTab st tab) := by
  obtain ⟨isO, tinfo⟩ := tab
  cases isO
  · exact h
  · rcases tinfo with _ | ⟨nid0⟩
    · exact h
    · rcases nid0 with _ | nid
      · exact h
      · show ExtractInv
          (if st.processed_notebook_ids.contains (some nid) then st
            else ⟨st.notebooks_data ++ [⟨some nid, "tab_configuration"⟩],
              some nid :: st.processed_notebook_ids⟩)
        cases hb : st.processed_notebook_ids.contains (some nid)
        · rw [if_neg (by simp [hb])]
          refine extract_inv_append st (some nid) "tab_configuration" h ?_
          simp at hb
          exact hb
        · rw [if_pos rfl]
          exact h

/-- The channel loop preserves the extraction invariant. -/
theorem processChannel_inv (st : ExtractState) (ch : NEChannel)
    (h : ExtractInv st) : ExtractInv (processChannel st ch) :=
  foldl_preserves_inv ExtractInv processTab processTab_inv ch.tabs st h

/-- The team loop preserves the extraction invariant. -/
theorem processTeam_inv (st : ExtractState) (team : NETeam)
    (h : ExtractInv st) : ExtractInv (processTeam st team) :=
  foldl_preserves_inv ExtractInv processChannel processChannel_inv
    team.channels _
    (foldl_preserves_inv ExtractInv processGroupNotebook
      processGroupNotebook_inv team.groupNotebookIds st h)

/-- Claim C10: across all teams, channels and tabs, every `notebook_id`
value appears at most once in the output `notebooks_data` list: every
append is guarded by a membership test on the single, never-cleared
`processed_notebook_ids` set. -/
theorem extract_notebook_ids_nodup (teams : List NETeam) :
    ((extract_onenote_notebooks_from_teams teams).map
      NotebookEntry.notebook_id).Nodup :=
  (foldl_preserves_inv ExtractInv processTeam processTeam_inv teams
    ⟨[], []⟩ ⟨List.nodup_nil, fun i hi => absurd hi (List.not_mem_nil i)⟩).1

mutual
/-- Every trace entry of an `explore_drive_structure` call at depth `d` is
either the entry of that call itself or comes from a strictly deeper call
guarded by `depth < 2`. -/
theorem explore_mem_depth (item : DriveItem) (path : Str) (d : Nat)
    (e : Str × Nat) (h : e ∈ explore_drive_structure item path d) :
    e.2 = d ∨ e.2 ≤ 2 := by
  match item with
  | .mk n f children =>
    rw [explore_drive_structure] at h
    by_cases hd : d > 3
    · rw [if_pos hd] at h
      cases h
    · rw [if_neg hd] at h
      rcases List.mem_cons.mp h with he | he
      · left
        rw [he]
      · right
        exact exploreChildren_mem_depth children path d e he

/-- Every trace entry produced while scanning a children list at depth `d`
sits at depth at most 2. -/
theorem exploreChildren_mem_depth (items : List DriveItem) (path : Str)
    (d : Nat) (e : Str × Nat) (h : e ∈ exploreChildren items path d) :
    e.2 ≤ 2 := by
  match items with
  | [] =>
    rw [exploreChildren] at h
    cases h
  | item :: rest =>
    rw [exploreChildren] at h
    rcases List.mem_append.mp h with h1 | h2
    · by_cases hc : (item.isFolder && decide (d < 2)) = true
      · rw [if_pos hc] at h1
        have hd : d < 2 := of_decide_eq_true (Bool.and_elim_right hc)
        rcases explore_mem_depth item (path ++ '/' :: item.name) (d + 1) e h1
          with he | he
        · omega
        · exact he
      · rw [if_neg hc] at h1
        cases h1
    · exact exploreChildren_mem_depth rest path d e h2
end

/-- Claim C8: `explore_drive_structure` terminates on every drive tree (it
is a total function of the tree), and starting from the drive root at
depth 0 every call it makes sits at depth at most 2: recursion descends
only into folders and only while `depth < 2`, at `depth + 1`. -/
theorem explore_depth_bounded (item : DriveItem) (path : Str) (e : Str × Nat)
    (h : e ∈ explore_drive_structure item path 0) : e.2 ≤ 2 := by
  rcases explore_mem_depth item path 0 e h with h0 | h2
  · omega
  · exact h2

/-- Witness for C8 at a concrete input: a four-level folder chain is
explored and the witnessed trace entry sits at depth 2. -/
theorem explore_depth_bounded_witness :
    (("//b/c".toList, 2) : Str × Nat).2 ≤ 2 :=
  explore_depth_bounded
    (.mk "a".toList true
      [.mk "b".toList true
        [.mk "c".toList true
          [.mk "d".toList true []]]])
    "/".toList ("//b/c".toList, 2) (by decide)

/-- The empty pattern is a substring of every string
(Python `"" in s` is always true). -/
theorem isInfixList_nil (s : Str) : isInfixList [] s = true := by
  induction s with
  | nil => rfl
  | cons a rest ih => simp [isInfixList, isPrefixList]

/-- Strategy 1 can never fire on the empty cleaned name: it skips channels
with empty names and the cleaned name is empty. -/
theorem strat1_empty_clean (channels : List Channel) :
    strat1 [] channels = none := by
  apply List.find?_eq_none.mpr
  intro c hc
  cases hn : lowerStr c.displayName with
  | nil => simp [hn]
  | cons a as => simp [hn]

/-- On the empty cleaned name, strategy 2 accepts exactly the channels with
a non-empty `displayName`, because the empty string is contained in every
non-empty channel name. -/
theorem strat2_empty_clean (channels : List Channel) :
    strat2 [] channels = channels.find? fun c => c.displayName != [] := by
  unfold strat2
  congr 1
  funext c
  cases hd : c.displayName with
  | nil => simp [lowerStr, hd, isInfixList, isPrefixList]
  | cons a as =>
    simp [lowerStr, hd, isInfixList_nil]
    rfl

/-- Claim C9: when the notebook name cleans to the empty string, the
short-circuit does not fire, and some channel has a non-empty
`displayName`, the matcher returns the first such channel (through the
containment strategy); later strategies are never consulted. -/
theorem empty_clean_containment (nb : Str) (channels : List Channel)
    (team : Str) (c₀ : Channel)
    (hclean : cleanNotebookName nb = [])
    (hsc : shortCircuitCond (cleanNotebookName nb) (lowerStr team) = false)
    (hfind : channels.find? (fun c => c.displayName != []) = some c₀) :
    match_notebook_to_channel nb channels team = (c₀.displayName, c₀.id) := by
  unfold match_notebook_to_channel candidateChannel
  rw [hsc, if_neg Bool.false_ne_true, hclean, strat1_empty_clean,
    strat2_empty_clean, hfind]
  rfl

/-- Witness for C9 at a concrete input: "Notas de " cleans to the empty
string and is matched to the first non-empty-named channel, skipping an
empty-named one. -/
theorem empty_clean_containment_witness :
    match_notebook_to_channel "Notas de ".toList
      [⟨"".toList, "e0".toList⟩, ⟨"Beta".toList, "b1".toList⟩]
      "Gamma Team".toList = ("Beta".toList, "b1".toList) :=
  empty_clean_containment "Notas de ".toList
    [⟨"".toList, "e0".toList⟩, ⟨"Beta".toList, "b1".toList⟩]
    "Gamma Team".toList ⟨"Beta".toList, "b1".toList⟩
    (by decide) (by decide) (by decide)

/-- The strategy-3 fold only ever returns the initial best candidate or a
channel of the scanned list. -/
theorem strat3_fold_mem (clean : Str) :
    ∀ (l : List Channel) (acc : Option Channel × Nat) (c : Channel),
      (l.foldl (strat3Step clean) acc).1 = some c →
      acc.1 = some c ∨ c ∈ l := by
  intro l
  induction l with
  | nil => intro acc c h; exact Or.inl h
  | cons x rest ih =>
    intro acc c h
    rcases ih (strat3Step clean acc x) c h with h1 | h1
    · unfold strat3Step at h1
      by_cases he : (lowerStr x.displayName == []) = true
      · rw [if_pos he] at h1
        exact Or.inl h1
      · rw [if_neg he] at h1
        by_cases hlt : acc.2 < channelScore clean x
        · rw [if_pos hlt] at h1
          simp only [Option.some.injEq] at h1
          rw [← h1]
          exact Or.inr (List.mem_cons_self x rest)
        · rw [if_neg hlt] at h1
          exact Or.inl h1
    · exact Or.inr (List.mem_cons_of_mem x h1)

/-- A channel returned by strategy 3 belongs to the channel list. -/
theorem strat3_mem (clean : Str) (channels : List Channel) (c : Channel)
    (h : strat3 clean channels = some c) : c ∈ channels := by
  unfold strat3 at h
  rcases hf : channels.foldl (strat3Step clean) (none, 0) with ⟨b, s⟩
  rw [hf] at h
  rcases b with _ | c2
  · cases h
  · rcases strat3_fold_mem clean channels (none, 0) c2
      (by rw [hf]) with h1 | h1
    · cases h1
    · have h2 : (if 0 < s then some c2 else none) = some c := h
      by_cases hs : 0 < s
      · rw [if_pos hs] at h2
        rw [← Option.some.injEq c2 c |>.mp h2]
        exact h1
      · rw [if_neg hs] at h2
        cases h2

/-- Claim C1: `match_notebook_to_channel` returns the sentinel pairing
("Unknown Channel", "unknown") exactly on an empty channel list: given
channels, some channel of the list provides the returned displayName/id
pair (through a match or a fallback), and the empty list always produces
the sentinel. -/
theorem match_sentinel_iff_empty (nb : Str) (channels : List Channel)
    (team : Str) :
    (channels = [] →
      match_notebook_to_channel nb channels team =
        ("Unknown Channel".toList, "unknown".toList)) ∧
    (channels ≠ [] →
      ∃ c ∈ channels,
        match_notebook_to_channel nb channels team =
          (c.displayName, c.id)) := by
  constructor
  · intro h
    subst h
    unfold match_notebook_to_channel candidateChannel
    cases hsc : shortCircuitCond (cleanNotebookName nb) (lowerStr team) <;>
      rfl
  · intro hne
    unfold match_notebook_to_channel
    rcases he : candidateChannel nb channels team with _ | c
    · exfalso
      unfold candidateChannel at he
      rcases (orElse_eq_none_iff _ _).mp he with ⟨-, he⟩
      rcases (orElse_eq_none_iff _ _).mp he with ⟨-, he⟩
      rcases (orElse_eq_none_iff _ _).mp he with ⟨-, he⟩
      rcases (orElse_eq_none_iff _ _).mp he with ⟨-, he⟩
      rcases (orElse_eq_none_iff _ _).mp he with ⟨-, he⟩
      rcases (orElse_eq_none_iff _ _).mp he with ⟨-, he⟩
      rcases channels with _ | ⟨c0, rest⟩
      · exact hne rfl
      · simp at he
    · refine ⟨c, ?_, rfl⟩
      unfold candidateChannel at he
      rcases (orElse_eq_some_iff _ _ _).mp he with h | ⟨-, he⟩
      · by_cases hcond :
          shortCircuitCond (cleanNotebookName nb) (lowerStr team) = true
        · rw [if_pos hcond] at h
          exact List.mem_of_find?_eq_some h
        · rw [if_neg hcond] at h
          cases h
      · rcases (orElse_eq_some_iff _ _ _).mp he with h | ⟨-, he⟩
        · exact List.mem_of_find?_eq_some h
        · rcases (orElse_eq_some_iff _ _ _).mp he with h | ⟨-, he⟩
          · exact List.mem_of_find?_eq_some h
          · rcases (orElse_eq_some_iff _ _ _).mp he with h | ⟨-, he⟩
            · exact strat3_mem _ _ _ h
            · rcases (orElse_eq_some_iff _ _ _).mp he with h | ⟨-, he⟩
              · exact List.mem_of_find?_eq_some h
              · rcases (orElse_eq_some_iff _ _ _).mp he with h | ⟨-, he⟩
                · exact List.mem_of_find?_eq_some h
                · exact List.mem_of_mem_head? he

/-- Witness for C1 at concrete inputs: the empty channel list yields the
sentinel, and a singleton list yields its only channel. -/
theorem match_sentinel_iff_empty_witness :
    match_notebook_to_channel "zz notebook".toList [] "team a".toList =
      ("Unknown Channel".toList, "unknown".toList) ∧
    ∃ c ∈ [(⟨"Docs".toList, "d1".toList⟩ : Channel)],
      match_notebook_to_channel "zz notebook".toList
        [⟨"Docs".toList, "d1".toList⟩] "team a".toList =
        (c.displayName, c.id) :=
  ⟨(match_sentinel_iff_empty "zz notebook".toList [] "team a".toList).1 rfl,
    (match_sentinel_iff_empty "zz notebook".toList
      [⟨"Docs".toList, "d1".toList⟩] "team a".toList).2 (by decide)⟩

/-- Counterexample for C4: with team "x", notebook "x" and channels
["X", "General"], the first channel's lowercased displayName equals the
cleaned notebook name, yet the team-name short-circuit returns the General
channel instead of that first exact match. -/
theorem exact_match_shortcircuit_counterexample :
    lowerStr "X".toList = cleanNotebookName "x".toList ∧
    match_notebook_to_channel "x".toList
      [⟨"X".toList, "c1".toList⟩, ⟨"General".toList, "g1".toList⟩]
      "x".toList = ("General".toList, "g1".toList) ∧
    ("General".toList, ("g1".toList : Str)) ≠ ("X".toList, "c1".toList) := by
  refine ⟨by decide, by decide, by decide⟩

/-- Claim C4 (amended): the strategies run in the fixed source order, and
provided the team-name short-circuit does not return a channel (its
condition is false, or no channel is named "General"), when some channel's
lowercased displayName equals the (non-empty) cleaned notebook name, the
first such channel is returned and no later strategy affects the result. -/
theorem exact_match_first_amended (nb : Str) (channels : List Channel)
    (team : Str) (c₀ : Channel)
    (hsc : shortCircuitCond (cleanNotebookName nb) (lowerStr team) = false ∨
      strat5 channels = none)
    (hclean : cleanNotebookName nb ≠ [])
    (hfind : channels.find?
      (fun c => lowerStr c.displayName == cleanNotebookName nb) = some c₀) :
    match_notebook_to_channel nb channels team = (c₀.displayName, c₀.id) := by
  unfold match_notebook_to_channel candidateChannel
  have hif : (if shortCircuitCond (cleanNotebookName nb) (lowerStr team) = true
      then strat5 channels else none) = none := by
    rcases hsc with hsc | hsc
    · rw [hsc, if_neg Bool.false_ne_true]
    · rw [hsc]
      exact ite_self none
  rw [hif]
  have h1 : strat1 (cleanNotebookName nb) channels = some c₀ := by
    unfold strat1
    rw [← hfind]
    congr 1
    funext c
    show (lowerStr c.displayName != [] &&
      (lowerStr c.displayName == cleanNotebookName nb)) =
      (lowerStr c.displayName == cleanNotebookName nb)
    cases hq : lowerStr c.displayName == cleanNotebookName nb
    · simp
    · have hce : lowerStr c.displayName = cleanNotebookName nb := by
        simpa using hq
      simp [hce, hclean]
  rw [h1]
  rfl

/-- Witness for C4 (amended) at a concrete input: "alpha" picks the later
exact-match channel "Alpha" past a non-matching first channel. -/
theorem exact_match_first_amended_witness :
    match_notebook_to_channel "alpha".toList
      [⟨"Zeta".toList, "z1".toList⟩, ⟨"Alpha".toList, "a1".toList⟩]
      "beta".toList = ("Alpha".toList, "a1".toList) :=
  exact_match_first_amended "alpha".toList
    [⟨"Zeta".toList, "z1".toList⟩, ⟨"Alpha".toList, "a1".toList⟩]
    "beta".toList ⟨"Alpha".toList, "a1".toList⟩
    (Or.inl (by decide)) (by decide) (by decide)

/-- A channel with an empty lowercased name scores 0: it has no tokens. -/
theorem channelScore_empty_name (clean : Str) (c : Channel)
    (hn : lowerStr c.displayName = []) : channelScore clean c = 0 := by
  unfold channelScore sharedTokens tokensOf pySplit
  rw [hn]
  rfl

/-- Full characterisation of the strategy-3 fold: starting from best
candidate `b` with best score `s`, either no channel of the list beats `s`
and the accumulator is unchanged, or the fold returns the first channel
achieving the maximal score of the list (which then beats `s`). -/
theorem strat3_fold_spec (clean : Str) :
    ∀ (l : List Channel) (b : Option Channel) (s : Nat),
      (List.foldl (strat3Step clean) (b, s) l = (b, s) ∧
        ∀ c ∈ l, channelScore clean c ≤ s) ∨
      (∃ i : Fin l.length,
        List.foldl (strat3Step clean) (b, s) l =
          (some (l.get i), channelScore clean (l.get i)) ∧
        s < channelScore clean (l.get i) ∧
        (∀ j : Fin l.length,
          channelScore clean (l.get j) ≤ channelScore clean (l.get i)) ∧
        (∀ j : Fin l.length, (j : Nat) < (i : Nat) →
          channelScore clean (l.get j) < channelScore clean (l.get i))) := by
  intro l
  induction l with
  | nil =>
    intro b s
    exact Or.inl ⟨rfl, by simp⟩
  | cons c rest ih =>
    intro b s
    have hAC : (strat3Step clean (b, s) c = (b, s) ∧
        channelScore clean c ≤ s) ∨
        (strat3Step clean (b, s) c = (some c, channelScore clean c) ∧
          s < channelScore clean c) := by
      unfold strat3Step
      by_cases hne : (lowerStr c.displayName == []) = true
      · rw [if_pos hne]
        refine Or.inl ⟨rfl, ?_⟩
        rw [channelScore_empty_name clean c (by simpa using hne)]
        omega
      · rw [if_neg hne]
        by_cases hlt : s < channelScore clean c
        · rw [if_pos hlt]
          exact Or.inr ⟨rfl, hlt⟩
        · rw [if_neg hlt]
          exact Or.inl ⟨rfl, Nat.le_of_not_lt hlt⟩
    rcases hAC with ⟨hstep, hle⟩ | ⟨hstep, hlt⟩
    · rw [List.foldl_cons, hstep]
      rcases ih b s with ⟨heq, hall⟩ | ⟨i, heq, hlti, hmax, hfirst⟩
      · refine Or.inl ⟨heq, ?_⟩
        intro x hx
        rcases List.mem_cons.mp hx with hx | hx
        · rw [hx]
          exact hle
        · exact hall x hx
      · refine Or.inr ⟨⟨(i : Nat) + 1, Nat.succ_lt_succ i.isLt⟩, heq, hlti, ?_, ?_⟩
        · intro j
          rcases j with ⟨jv, hjv⟩
          cases jv with
          | zero => exact le_trans hle (le_of_lt hlti)
          | succ k => exact hmax ⟨k, Nat.lt_of_succ_lt_succ hjv⟩
        · intro j hj
          rcases j with ⟨jv, hjv⟩
          cases jv with
          | zero => exact lt_of_le_of_lt hle hlti
          | succ k =>
            exact hfirst ⟨k, Nat.lt_of_succ_lt_succ hjv⟩
              (Nat.lt_of_succ_lt_succ hj)
    · rw [List.foldl_cons, hstep]
      rcases ih (some c) (channelScore clean c) with
        ⟨heq, hall⟩ | ⟨i, heq, hlti, hmax, hfirst⟩
      · refine Or.inr ⟨⟨0, Nat.succ_pos rest.length⟩, heq, hlt, ?_, ?_⟩
        · intro j
          rcases j with ⟨jv, hjv⟩
          cases jv with
          | zero => exact le_refl _
          | succ k =>
            exact hall (rest.get ⟨k, Nat.lt_of_succ_lt_succ hjv⟩)
              (List.get_mem rest k (Nat.lt_of_succ_lt_succ hjv))
        · intro j hj
          exact absurd hj (Nat.not_lt_zero _)
      · refine Or.inr ⟨⟨(i : Nat) + 1, Nat.succ_lt_succ i.isLt⟩, heq,
          lt_trans hlt hlti, ?_, ?_⟩
        · intro j
          rcases j with ⟨jv, hjv⟩
          cases jv with
          | zero => exact le_of_lt hlti
          | succ k => exact hmax ⟨k, Nat.lt_of_succ_lt_succ hjv⟩
        · intro j hj
          rcases j with ⟨jv, hjv⟩
          cases jv with
          | zero => exact hlti
          | succ k =>
            exact hfirst ⟨k, Nat.lt_of_succ_lt_succ hjv⟩
              (Nat.lt_of_succ_lt_succ hj)

/-- Claim C3: when the short-circuit does not fire, no channel name equals
the cleaned name, no channel name contains it or is contained in it, and
some channel shares a whitespace token with the cleaned name, the matcher
returns, via token scoring, the channel with the highest score (number of
shared tokens plus a bonus per shared token longer than 3 characters),
ties broken by first position in the channel list. -/
theorem token_scoring_best_first (nb : Str) (channels : List Channel)
    (team : Str)
    (hsc : shortCircuitCond (cleanNotebookName nb) (lowerStr team) = false)
    (hex : ∀ c ∈ channels, lowerStr c.displayName ≠ cleanNotebookName nb)
    (hct : ∀ c ∈ channels,
      isInfixList (lowerStr c.displayName) (cleanNotebookName nb) = false ∧
      isInfixList (cleanNotebookName nb) (lowerStr c.displayName) = false)
    (hshare : ∃ c ∈ channels, sharedTokens (cleanNotebookName nb) c ≠ []) :
    ∃ i : Fin channels.length,
      match_notebook_to_channel nb channels team =
        ((channels.get i).displayName, (channels.get i).id) ∧
      (∀ j : Fin channels.length,
        channelScore (cleanNotebookName nb) (channels.get j) ≤
          channelScore (cleanNotebookName nb) (channels.get i)) ∧
      (∀ j : Fin channels.length, (j : Nat) < (i : Nat) →
        channelScore (cleanNotebookName nb) (channels.get j) <
          channelScore (cleanNotebookName nb) (channels.get i)) := by
  have h1 : strat1 (cleanNotebookName nb) channels = none := by
    apply List.find?_eq_none.mpr
    intro c hc
    intro hcontra
    rw [Bool.and_eq_true] at hcontra
    exact hex c hc (by simpa using hcontra.2)
  have h2 : strat2 (cleanNotebookName nb) channels = none := by
    apply List.find?_eq_none.mpr
    intro c hc
    intro hcontra
    rw [Bool.and_eq_true, Bool.or_eq_true] at hcontra
    rcases hcontra.2 with h | h
    · rw [(hct c hc).1] at h
      cases h
    · rw [(hct c hc).2] at h
      cases h
  rcases strat3_fold_spec (cleanNotebookName nb) channels none 0 with
    ⟨heq, hall⟩ | ⟨i, heq, hlti, hmax, hfirst⟩
  · exfalso
    rcases hshare with ⟨c, hc, hs⟩
    have hpos : 0 < (sharedTokens (cleanNotebookName nb) c).length :=
      List.length_pos.mpr hs
    have hcs := hall c hc
    unfold channelScore at hcs
    omega
  · have h3 : strat3 (cleanNotebookName nb) channels =
        some (channels.get i) := by
      unfold strat3
      rw [heq]
      show (if 0 < channelScore (cleanNotebookName nb) (channels.get i)
        then some (channels.get i) else none) = some (channels.get i)
      rw [if_pos hlti]
    refine ⟨i, ?_, hmax, hfirst⟩
    unfold match_notebook_to_channel candidateChannel
    rw [hsc, if_neg Bool.false_ne_true, h1, h2, h3]
    rfl

/-- Witness for C3 at a concrete input: for cleaned name "alpha beta", the
channel "beta alpha" (score 4: two shared tokens, both longer than 3)
beats "Zeta alpha" (score 2) and is returned by token scoring. -/
theorem token_scoring_best_first_witness :
    ∃ i : Fin ([⟨"Zeta alpha".toList, "z1".toList⟩,
        ⟨"beta alpha".toList, "b1".toList⟩] : List Channel).length,
      match_notebook_to_channel "alpha beta".toList
        [⟨"Zeta alpha".toList, "z1".toList⟩,
          ⟨"beta alpha".toList, "b1".toList⟩] "other team".toList =
        ((([⟨"Zeta alpha".toList, "z1".toList⟩,
          ⟨"beta alpha".toList, "b1".toList⟩] : List Channel).get i).displayName,
          (([⟨"Zeta alpha".toList, "z1".toList⟩,
            ⟨"beta alpha".toList, "b1".toList⟩] : List Channel).get i).id) ∧
      (∀ j : Fin ([⟨"Zeta alpha".toList, "z1".toList⟩,
          ⟨"beta alpha".toList, "b1".toList⟩] : List Channel).length,
        channelScore (cleanNotebookName "alpha beta".toList)
          (([⟨"Zeta alpha".toList, "z1".toList⟩,
            ⟨"beta alpha".toList, "b1".toList⟩] : List Channel).get j) ≤
        channelScore (cleanNotebookName "alpha beta".toList)
          (([⟨"Zeta alpha".toList, "z1".toList⟩,
            ⟨"beta alpha".toList, "b1".toList⟩] : List Channel).get i)) ∧
      (∀ j : Fin ([⟨"Zeta alpha".toList, "z1".toList⟩,
          ⟨"beta alpha".toList, "b1".toList⟩] : List Channel).length,
        (j : Nat) < (i : Nat) →
        channelScore (cleanNotebookName "alpha beta".toList)
          (([⟨"Zeta alpha".toList, "z1".toList⟩,
            ⟨"beta alpha".toList, "b1".toList⟩] : List Channel).get j) <
        channelScore (cleanNotebookName "alpha beta".toList)
          (([⟨"Zeta alpha".toList, "z1".toList⟩,
            ⟨"beta alpha".toList, "b1".toList⟩] : List Channel).get i)) :=
  token_scoring_best_first "alpha beta".toList
    [⟨"Zeta alpha".toList, "z1".toList⟩, ⟨"beta alpha".toList, "b1".toList⟩]
    "other team".toList (by decide) (by decide) (by decide) (by decide)
